import Mathlib

/-!
Verification of the logical-view indexing engine of `nitorch`
(`src/nitorch/io/mapping.py`) and of the non-finite-value post-processing of
the rational VFA computation (`src/nitorch/tools/qmri/relaxometry/vfa.py`).

The embedding follows the Python source line by line.  The helper modules
`nitorch/io/indexing.py` (`expand_index`, `compose_index`, the index-element
classifiers, `invert_permutation`), `nitorch/core/pyutils.py` (`make_list`)
and `nitorch/spatial` (`affine_sub`, `affine_permute`) are not part of the
source tree under study; their definitions below are modelled from the
specification (see the individual doc comments).
-/

set_option autoImplicit false

namespace Nitorch

/-! ## Index elements

`expand_index` (spec section 4.1) turns a user-supplied index into a fully
expanded tuple whose elements are: a resolved integer (drops the axis), a
resolved slice (keeps the axis), a new-axis marker (`None`), or a list index
(kept as such; per the docstrings of `MappedArray.slice`, "Indices can only
be slices, ellipses, lists or integers").
-/

/-- A fully expanded index element, as produced by `expand_index`. -/
inductive Idx where
  /-- A bare integer: drops the axis (`is_droppedaxis`). -/
  | ival (i : Int)
  /-- A slice with resolved `start`, `stop`, `step` (`is_sliceaxis`). -/
  | sl (start stop step : Int)
  /-- `None`: inserts a new axis of size 1 (`is_newaxis`). -/
  | newax
  /-- A list index (kept unexpanded; advanced indexing). -/
  | ilist (l : List Int)
  deriving Repr, DecidableEq

/-- Modelled from the spec: classifier `is_droppedaxis` of the missing
`nitorch/io/indexing.py` — a bare integer removes the axis. -/
def Idx.isDropped : Idx → Bool
  | .ival _ => true
  | _ => false

/-- Modelled from the spec: classifier `is_newaxis` of the missing
`nitorch/io/indexing.py` — a `None` marker adds a size-1 axis. -/
def Idx.isNew : Idx → Bool
  | .newax => true
  | _ => false

/-- Modelled from the spec: classifier `is_sliceaxis` of the missing
`nitorch/io/indexing.py` — a slice keeps (possibly resizes) the axis. -/
def Idx.isSlice : Idx → Bool
  | .sl _ _ _ => true
  | _ => false

/-- `isinstance(idx, list)` on an expanded index element. -/
def Idx.isListIdx : Idx → Bool
  | .ilist _ => true
  | _ => false

/-- A user-supplied index element, before expansion: integer, slice with
optional bounds, ellipsis, `None`, or list. -/
inductive UIdx where
  | uint (i : Int)
  | usl (start stop step : Option Int)
  | uell
  | unone
  | ulist (l : List Int)
  deriving Repr, DecidableEq

/-- A full slice, `slice(None)` / `:`. -/
def fullSlice : UIdx := .usl none none none

/-- Whether a user index element consumes an original axis (everything
except `None` and the ellipsis marker). -/
def UIdx.consumesAxis : UIdx → Bool
  | .unone => false
  | .uell => false
  | _ => true

/-- `isinstance(idx, list)` on a user index element. -/
def UIdx.isListIdx : UIdx → Bool
  | .ulist _ => true
  | _ => false

/-! ## Python helpers -/

/-- Python truth arithmetic: `True == 1`, `False == 0` when a `bool` is
compared with an `int`. -/
def pyBoolInt (b : Bool) : Int := if b then 1 else 0

/-- Python `l[i]` for a (possibly negative) integer index; raises
`IndexError` when out of range. -/
def pyGet {α : Type} (l : List α) (i : Int) : Except String α :=
  let j : Int := if i < 0 then i + l.length else i
  if h : j.toNat < l.length ∧ 0 ≤ j then .ok (l.get ⟨j.toNat, h.1⟩)
  else .error "IndexError: list index out of range"

/-- Python slice-bound clamping for `l[:i]` / `l[i:]`. -/
def pyClampIdx (len : Nat) (i : Int) : Nat :=
  (if i < 0 then max (i + len) 0 else min i len).toNat

/-- Python `l[:i]`. -/
def pyTake {α : Type} (l : List α) (i : Int) : List α :=
  l.take (pyClampIdx l.length i)

/-- Python `l[i:]`. -/
def pyDrop {α : Type} (l : List α) (i : Int) : List α :=
  l.drop (pyClampIdx l.length i)

/-- The failures of index expansion other than the multi-list rejection
(spec section 4.1): more than one ellipsis, too many axis-consuming
indices, an out-of-range integer, and a zero slice step. -/
inductive ExpandErr where
  | multiEllipsis
  | tooMany
  | outOfBounds
  | stepZero
  deriving Repr, DecidableEq

/-- The exception text of each expansion failure. -/
def ExpandErr.msg : ExpandErr → String
  | .multiEllipsis => "IndexError: an index can only have a single ellipsis"
  | .tooMany => "IndexError: too many indices for array"
  | .outOfBounds => "IndexError: index out of bounds"
  | .stepZero => "ValueError: slice step cannot be zero"

/-- The `IndexError` with which expansion rejects an index holding more
than one list-valued element (spec section 4.1: advanced indexing is
unsupported). -/
def listIndexErrorMsg : String :=
  "IndexError: more than one index is a list or sequence type; advanced indexing is not supported"

/-- Resolution of a Python `slice(start, stop, step)` against an axis of
size `s`, following CPython `slice.indices`: returns the resolved
`(start, stop, step)` and the extent of the result. -/
def pySliceResolve (s : Nat) (a b st : Option Int) : Except ExpandErr (Int × Int × Int × Nat) :=
  let step := st.getD 1
  if step = 0 then .error .stepZero
  else if step > 0 then
    let start := match a with
      | none => 0
      | some x => if x < 0 then max (x + s) 0 else min x s
    let stop := match b with
      | none => (s : Int)
      | some x => if x < 0 then max (x + s) 0 else min x s
    let ext : Nat := if stop ≤ start then 0 else (((stop - start - 1) / step) + 1).toNat
    .ok (start, stop, step, ext)
  else
    let start := match a with
      | none => (s : Int) - 1
      | some x => if x < 0 then max (x + s) (-1) else min x ((s : Int) - 1)
    let stop := match b with
      | none => -1
      | some x => if x < 0 then max (x + s) (-1) else min x ((s : Int) - 1)
    let ext : Nat := if start ≤ stop then 0 else (((start - stop - 1) / (-step)) + 1).toNat
    .ok (start, stop, step, ext)

/-! ## `expand_index`, modelled from the spec -/

/-- Resolves an already ellipsis-free, padded index against the shape,
element by element, producing the expanded index and the result shape. -/
def expandGo : List UIdx → List Nat → Except ExpandErr (List Idx × List Nat)
  | [], _ => .ok ([], [])
  | .unone :: us, szs =>
      match expandGo us szs with
      | .error e => .error e
      | .ok (ix, sh) => .ok (.newax :: ix, 1 :: sh)
  | .uint i :: us, sz :: szs =>
      if i < -(sz : Int) || i ≥ (sz : Int) then .error .outOfBounds
      else
        match expandGo us szs with
        | .error e => .error e
        | .ok (ix, sh) => .ok (.ival (if i < 0 then i + sz else i) :: ix, sh)
  | .usl a b st :: us, sz :: szs =>
      match pySliceResolve sz a b st with
      | .error e => .error e
      | .ok (sa, r) =>
          match expandGo us szs with
          | .error e => .error e
          | .ok (ix, sh) => .ok (.sl sa r.1 r.2.1 :: ix, r.2.2 :: sh)
  | .ulist l :: us, sz :: szs =>
      if l.any (fun i => i < -(sz : Int) || i ≥ (sz : Int)) then .error .outOfBounds
      else
        match expandGo us szs with
        | .error e => .error e
        | .ok (ix, sh) =>
            .ok (.ilist (l.map (fun i => if i < 0 then i + (sz : Int) else i)) :: ix,
                 l.length :: sh)
  | .uell :: us, szs => expandGo us szs
  | _ :: _, [] => .error .tooMany

/-- Ellipsis replacement and implicit trailing full slices: a single
ellipsis becomes the right number of full slices; otherwise trailing full
slices are appended up to the dimensionality of `shape`. -/
def expandFill (index : List UIdx) (shape : List Nat) : List UIdx :=
  let nbFill := shape.length - (index.filter UIdx.consumesAxis).length
  if (index.filter (fun u => u = UIdx.uell)).length = 1 then
    (index.map (fun u => if u = UIdx.uell then List.replicate nbFill fullSlice else [u])).flatten
  else index ++ List.replicate nbFill fullSlice

/-- Modelled from the spec: `expand_index` of the missing
`nitorch/io/indexing.py` (spec section 4.1).  Fails with `IndexError` when
more than one index element is a list/sequence type (advanced indexing is
rejected as unsupported), when more than one ellipsis is given, when the
number of axis-consuming indices exceeds `len(shape)`, or when an integer
is out of `[-size, size)`; otherwise it replaces a single ellipsis with
the correct number of full slices, pads trailing implicit full slices,
resolves negative integers and slice bounds against `shape`, and
classifies every element (dropped / new / kept).  A single list index is
resolved entry-wise and kept as a list (the docstring of
`MappedArray.slice` admits list elements). -/
def expand_index (index : List UIdx) (shape : List Nat) :
    Except String (List Idx × List Nat) :=
  if 1 < (index.filter UIdx.isListIdx).length then .error listIndexErrorMsg
  else if 1 < (index.filter (fun u => u = UIdx.uell)).length then
    .error ExpandErr.multiEllipsis.msg
  else if shape.length < (index.filter UIdx.consumesAxis).length then
    .error ExpandErr.tooMany.msg
  else
    match expandGo (expandFill index shape) shape with
    | .error e => .error e.msg
    | .ok r => .ok r

/-! ## Affine transforms, modelled from the spec

`nitorch.spatial` is not part of the source tree under study.  An affine is
a homogeneous `(m+1) x (m+1)` rational matrix, stored as a list of rows;
its first `m` columns are the voxel direction vectors of the spatial axes
and its last column is the translation. -/

/-- A voxel-to-world affine matrix, as a list of rows. -/
abbrev Aff := List (List ℚ)

/-- Pointwise sum of two vectors. -/
def vecAdd (v w : List ℚ) : List ℚ := List.zipWith (· + ·) v w

/-- Scalar multiple of a vector. -/
def vecSmul (c : ℚ) (v : List ℚ) : List ℚ := v.map (fun x => c * x)

/-- Walks the spatial index elements against the direction columns,
accumulating the translation: a kept slice `start:stop:step` scales its
column by `step` and shifts the translation by `start` times the column; a
dropped integer `i` removes its column and shifts the translation by `i`
times it; the leftover columns (implicit full slices) are kept. -/
def affineSubGo : List Idx → List (List ℚ) → List ℚ → List (List ℚ) × List ℚ
  | .sl a _ s :: idxs, col :: cols, t =>
      let r := affineSubGo idxs cols (vecAdd t (vecSmul (a : ℚ) col))
      (vecSmul (s : ℚ) col :: r.1, r.2)
  | .ival i :: idxs, col :: cols, t =>
      affineSubGo idxs cols (vecAdd t (vecSmul (i : ℚ) col))
  | _ :: idxs, cols, t => affineSubGo idxs cols t
  | [], cols, t => (cols, t)

/-- Modelled from the spec: `nitorch.spatial.affine_sub` (spec section 4.2,
`affine_restrict`): for each spatial axis, `new_affine @ [i,1] ==
affine @ [start + i*step, 1]` — the translation is shifted by `start`
scaled by the axis direction and the column is scaled by `step` (a negative
step flips the column); a dropped spatial axis removes its column while
fixing the translation at the dropped position.  The `shape` argument of
the original signature is kept but not needed once bounds are resolved. -/
def affine_sub (A : Aff) (_shape : List Nat) (index : List Idx) : Aff :=
  let cols := A.transpose
  let m := cols.length - 1
  let dirs := cols.take m
  let t := cols.getD m []
  let r := affineSubGo index dirs t
  (r.1 ++ [r.2]).transpose

/-- Modelled from the spec: `nitorch.spatial.affine_permute` (spec section
4.2): reorders the spatial direction columns of the linear part according
to the given permutation of the current spatial axes.  `None` stays
`None`. -/
def affine_permute (A : Option Aff) (_shape : List Nat) (perm : List Nat) : Option Aff :=
  A.map (fun M =>
    let cols := M.transpose
    let m := cols.length - 1
    let dirs := cols.take m
    let t := cols.drop m
    (perm.map (fun p => dirs.getD p []) ++ t).transpose)

/-! ## The logical view (`MappedArray`) -/

/-- State of a `MappedArray` view: the fields of the Python object that the
indexing engine reads and writes (`mapping.py` lines 24-38).  `slicer` is
`none` for a freshly mapped array (same layout as on disk). -/
structure View where
  /-- `_shape`: original on-disk shape. -/
  oshape : List Nat
  /-- `_spatial`: original spatial mask. -/
  ospatial : List Bool
  /-- `_affine`: original voxel-to-world affine. -/
  oaffine : Option Aff
  /-- `shape`: sliced shape. -/
  shape : List Nat
  /-- `spatial`: sliced spatial mask. -/
  spatial : List Bool
  /-- `affine`: sliced voxel-to-world affine. -/
  affine : Option Aff
  /-- `slicer`: indexing into the parent (`None` before any slicing). -/
  slicer : Option (List Idx)
  /-- `permutation`: permutation of the original dimensions. -/
  permutation : List Nat
  deriving Repr, DecidableEq

/-- `dim`: number of sliced dimensions (line 40). -/
def View.dim (v : View) : Nat := v.shape.length

/-- The guard of `MappedArray.slice` (line 109) and of `CatArray.slice`
(line 684), which are the same expression:
`any(isinstance(idx, list) for idx in index) > 1`.
`any(...)` is a `bool`, which Python compares with `1` as an integer. -/
def sliceListGuardFires (index : List Idx) : Bool :=
  decide (pyBoolInt (index.any Idx.isListIdx) > 1)

/-- The message of the (intended) list-index rejection, lines 110-112. -/
def listGuardMsg : String :=
  "ValueError: List indices not currently supported (otherwise we enter advanced indexing territory and it becomes too complicated)."

/-- Modelled from the spec: one step of `compose_index` of the missing
`nitorch/io/indexing.py` (spec section 4.1).  The outer index maps original
axes to current axes; the inner index applies to current axes.  A dropped
outer axis is carried along; an inner integer landing in an outer slice
becomes the absolute integer `start + i*step`; a slice of a slice composes
the bound arithmetic; new axes from either side are preserved
positionally. -/
def composeGo : List Idx → List Idx → List Idx
  | [], inner => inner.filter Idx.isNew
  | outer, [] => outer
  | .ival i :: outs, inner => .ival i :: composeGo outs inner
  | out :: outs, .newax :: inns => .newax :: composeGo (out :: outs) inns
  | .sl a _ s :: outs, .ival j :: inns => .ival (a + j * s) :: composeGo outs inns
  | .sl a _ s :: outs, .sl a2 b2 s2 :: inns =>
      .sl (a + a2 * s) (a + b2 * s) (s * s2) :: composeGo outs inns
  | .sl a _ s :: outs, .ilist l :: inns =>
      .ilist (l.map (fun j => a + j * s)) :: composeGo outs inns
  | .newax :: outs, .ival _ :: inns => composeGo outs inns
  | .newax :: outs, _ :: inns => .newax :: composeGo outs inns
  | .ilist l :: outs, .ival j :: inns => .ival (l.getD j.toNat 0) :: composeGo outs inns
  | .ilist l :: outs, _ :: inns => .ilist l :: composeGo outs inns
  termination_by outer inner => outer.length + inner.length

/-- Modelled from the spec: `compose_index(outer, inner)` of the missing
`nitorch/io/indexing.py`. -/
def compose_index (outer inner : List Idx) : List Idx := composeGo outer inner

/-- The spatial-mask recomputation loop of `MappedArray.slice`
(lines 136-146): a new axis contributes `False`; a dropped axis contributes
nothing; a kept axis contributes `self._spatial[self.permutation[i]]`, with
`i` counting the non-new index elements.  (The Python lookups are in range
for the views the theorems quantify over; out-of-range lookups default.) -/
def spatialMaskGo (ospatial : List Bool) (perm : List Nat) : List Idx → Nat → List Bool
  | [], _ => []
  | .newax :: idxs, i => false :: spatialMaskGo ospatial perm idxs i
  | .ival _ :: idxs, i => spatialMaskGo ospatial perm idxs (i + 1)
  | _ :: idxs, i =>
      ospatial.getD (perm.getD i 0) false :: spatialMaskGo ospatial perm idxs (i + 1)

/-- `MappedArray.slice` on an already expanded index (`_pre_expanded=True`),
lines 109-148: the list guard, then `new = copy(self)` with the new shape,
the affine recomputed from the spatial sub-index via `affine_sub`, the new
slicer (the index itself for a fresh view, else the composition), and the
recomputed spatial mask. -/
def sliceExpanded (self : View) (index : List Idx) (newShape : List Nat) :
    Except String View :=
  if sliceListGuardFires index then .error listGuardMsg
  else
    let affine : Option Aff :=
      match self.affine with
      | some A =>
          let spatialShape := ((self.shape.zip self.spatial).filter (·.2)).map (·.1)
          let spatialIndex0 := index.filter
            (fun idx => idx.isSlice ||
              (match idx with | .ival i => decide (0 ≤ i) | _ => false))
          let spatialIndex := ((spatialIndex0.zip self.spatial).filter (·.2)).map (·.1)
          some (affine_sub A spatialShape spatialIndex)
      | none => none
    let slicer : List Idx :=
      match self.slicer with
      | none => index
      | some s => compose_index s index
    let spatial := spatialMaskGo self.ospatial self.permutation index 0
    .ok { self with shape := newShape, affine := affine,
                    slicer := some slicer, spatial := spatial }

/-- `MappedArray.slice` (public entry, lines 86-148): expand the index
against the current shape, then apply `sliceExpanded`. -/
def MappedArray.slice (self : View) (uindex : List UIdx) : Except String View :=
  match expand_index uindex self.shape with
  | .error e => .error e
  | .ok r => sliceExpanded self r.1 r.2

/-! ## `MappedArray.permute` -/

/-- The validation at the head of `MappedArray.permute` (lines 190-193):
`len(dims) != self.dim or len(dims) != len(set(dims))`
(`len(set(dims))` is the number of distinct entries). -/
def permuteCheckRaises (dims : List Int) (dim : Nat) : Bool :=
  decide (dims.length ≠ dim) || decide (dims.length ≠ dims.dedup.length)

/-- The `TypeError` Python raises when `self.slicer[n_slicer]` subscripts
a slicer that is still `None` (line 207, reached by `permute` on any
freshly mapped view as soon as the reordering loop runs). -/
def noneSubscriptMsg : String := "TypeError: NoneType object is not subscriptable"

/-- The `ValueError` message of `permute` (lines 191-193), formatted with
`len(set(dims))` and `self.dim`. -/
def permuteValueMsg (uniqueCount dimCount : Nat) : String :=
  "ValueError: there should be as many (unique) dimensions as the arrays dimension. Got "
    ++ toString uniqueCount ++ " and " ++ toString dimCount ++ "."

/-- The slicer/permutation reordering loop of `permute` (lines 202-214):
walks `dims`, carrying dropped slicer entries along positionally
(`n_dropped` counts them) and fetching kept entries at `d + n_dropped`;
Python list lookups may raise `IndexError`. -/
def permuteLoop (slicer : List Idx) (perm : List Nat) :
    List Int → Nat → Nat → Except String (List Idx × List Nat)
  | [], _, _ => .ok ([], [])
  | d :: ds, nSlicer, nDropped => do
      let cur ← pyGet slicer (nSlicer : Int)
      if cur.isDropped then do
        let pm ← pyGet perm (nSlicer : Int)
        let r ← permuteLoop slicer perm ds (nSlicer + 1) (nDropped + 1)
        .ok (cur :: r.1, pm :: r.2)
      else do
        let s ← pyGet slicer (d + (nDropped : Int))
        let pm ← pyGet perm (d + (nDropped : Int))
        let r ← permuteLoop slicer perm ds (nSlicer + 1) nDropped
        .ok (s :: r.1, pm :: r.2)

/-- Insertion into a list sorted by a boolean key comparison. -/
def insertLe {α : Type} (le : α → α → Bool) (x : α) : List α → List α
  | [] => [x]
  | y :: ys => if le x y then x :: y :: ys else y :: insertLe le x ys

/-- Insertion sort by a boolean key comparison. -/
def sortLe {α : Type} (le : α → α → Bool) : List α → List α
  | [] => []
  | x :: xs => insertLe le x (sortLe le xs)

/-- Python `sorted(range(len(l)), key=lambda k: l[k])` (argsort). -/
def argsortInt (l : List Int) : List Nat :=
  sortLe (fun a b => l.getD a 0 ≤ l.getD b 0) (List.range l.length)

/-- `MappedArray.permute` (lines 174-231): validate `dims`, permute shape
and spatial mask by Python indexing (`self.shape[d]`), reorder slicer and
permutation through `permuteLoop` (subscripting `self.slicer` raises
`TypeError` on a fresh view whose slicer is `None`, as soon as the loop
body runs), permute the affine over the current spatial axes, and build the
new object by `copy(self)` plus field overwrites. -/
def MappedArray.permute (self : View) (dims : List Int) : Except String View := do
  if permuteCheckRaises dims self.dim then
    .error (permuteValueMsg dims.dedup.length self.dim)
  else do
    let shape ← dims.mapM (pyGet self.shape)
    let spatial ← dims.mapM (pyGet self.spatial)
    let sdm ←
      match self.slicer, dims with
      | _, [] => .ok (([] : List Idx), ([] : List Nat))
      | none, _ :: _ => .error noneSubscriptMsg
      | some s, _ :: _ => permuteLoop s self.permutation dims 0 0
    let flags ← dims.mapM (pyGet self.spatial)
    let permSpatial := ((dims.zip flags).filter (·.2)).map (·.1)
    let permSpatialSorted := argsortInt permSpatial
    let affine := affine_permute self.affine self.shape permSpatialSorted
    .ok { self with shape := shape.map id, spatial := spatial,
                    permutation := sdm.2, slicer := some sdm.1, affine := affine }

/-! ## Derived operations: `unsqueeze`, `squeeze`, `chunk`, `split` -/

/-- `MappedArray.unsqueeze` (lines 488-506): build
`[slice(None)] * self.dim`, normalize a negative `dim`, splice a `None`
marker in at position `dim` (Python list slicing clamps), and slice. -/
def MappedArray.unsqueeze (self : View) (dim : Int) : Except String View :=
  let d : Int := if dim < 0 then (self.dim : Int) + dim else dim
  let index := List.replicate self.dim fullSlice
  let index2 := pyTake index d ++ [UIdx.unone] ++ pyDrop index d
  MappedArray.slice self index2

/-- Python call `v.squeeze()`: the source signature (line 508) is
`def squeeze(self, dim):` — `dim` has no default value, so a call with no
argument raises `TypeError` before the body runs. -/
def squeezeNoArgMsg : String :=
  "TypeError: squeeze() missing 1 required positional argument: dim"

/-- The Python call `v.squeeze()` with no argument (signature of line 508). -/
def MappedArray.squeezeNoArg (_self : View) : Except String View :=
  .error squeezeNoArgMsg

/-- The `ValueError` message of `squeeze` (line 526). -/
def squeezeValueMsg : String :=
  "ValueError: Impossible to squeeze non-singleton dimensions."

/-- The body of `MappedArray.squeeze` (lines 522-528).  `dimArg` is the
value of the `dim` parameter after `make_list` (from the missing
`nitorch/core/pyutils.py`, modelled from the spec: an integer argument `d`
becomes `[d]`, a sequence is kept, and `None` selects every size-1 axis
first).  A named axis of extent other than 1 raises `ValueError`; otherwise
the selected axes are indexed by the integer `0` and the rest by full
slices. -/
def MappedArray.squeezeBody (self : View) (dimArg : Option (List Int)) :
    Except String View :=
  let dims : List Int :=
    match dimArg with
    | none => ((List.range self.dim).filter (fun d => self.shape.getD d 0 = 1)).map
        (fun (d : Nat) => Int.ofNat d)
    | some l => l
  if dims.any (fun d => match pyGet self.shape d with | .ok 1 => false | _ => true) then
    .error squeezeValueMsg
  else
    let index := (List.range self.dim).map
      (fun (d : Nat) => if dims.contains (Int.ofNat d) then UIdx.uint 0 else fullSlice)
    MappedArray.slice self index

/-- `MappedArray.chunk` (lines 554-574): despite its docstring, the loop
runs `self.shape[dim]` times and the `i`-th output is the view sliced with
`slice(i*chunks, (i+1)*chunks)` at axis `dim` (full slices elsewhere). -/
def MappedArray.chunk (self : View) (chunks : Int) (dim : Nat) :
    List (Except String View) :=
  (List.range (self.shape.getD dim 0)).map (fun (i : Nat) =>
    MappedArray.slice self
      ((List.replicate self.dim fullSlice).set dim
        (UIdx.usl (some (Int.ofNat i * chunks)) (some ((Int.ofNat i + 1) * chunks)) none)))

/-- The `ValueError` message of `split` (lines 596-598), formatted with the
sum of the chunk sizes and the axis extent. -/
def splitValueMsg (total extent : Nat) : String :=
  "ValueError: Chunks must cover the full dimension. Got "
    ++ toString total ++ " and " ++ toString extent ++ "."

/-- The slicing loop of `split` for an explicit size list (lines 599-606). -/
def splitSizesGo (self : View) (dim : Nat) : List Nat → Nat → List (Except String View)
  | [], _ => []
  | c :: cs, prev =>
      MappedArray.slice self
        ((List.replicate self.dim fullSlice).set dim
          (UIdx.usl (some (prev : Int)) (some ((prev + c : Nat) : Int)) none))
      :: splitSizesGo self dim cs (prev + c)

/-- `MappedArray.split` (lines 576-606): an integer argument delegates to
`chunk`; a size list must sum exactly to the axis extent (`ValueError`
otherwise) and produces consecutive slices. -/
def MappedArray.split (self : View) (chunks : Int ⊕ List Nat) (dim : Nat) :
    Except String (List (Except String View)) :=
  match chunks with
  | .inl n => .ok (MappedArray.chunk self n dim)
  | .inr sizes =>
      if sizes.sum ≠ self.shape.getD dim 0 then
        .error (splitValueMsg sizes.sum (self.shape.getD dim 0))
      else .ok (splitSizesGo self dim sizes 0)

/-! ## Virtual concatenation (`CatArray`) -/

/-- State of a `CatArray`: the member views, the concatenation axis and the
reported shape (lines 609-677). -/
structure CatArray where
  arrays : List View
  dimCat : Nat
  shape : List Nat
  deriving Repr, DecidableEq

/-- The `ValueError` message of `CatArray.__init__` (lines 664-665): a
constant string, not formatted with any member index. -/
def catMismatchMsg : String :=
  "ValueError: Shapes of all concatenated arrays should be equal except in the concatenation dimension."

/-- The error Python raises on `shape0, *shapes = shapes` (line 662) when
`arrays` is empty. -/
def catUnpackMsg : String :=
  "ValueError: not enough values to unpack (expected at least 1, got 0)"

/-- The sanity check of lines 654-665: every member shape with the
concatenation axis deleted (`del shape[dim]`) equals the first one
(`shape0`). -/
def catShapeOk (a0 : View) (rest : List View) (dim : Nat) : Bool :=
  rest.all (fun a => a.shape.eraseIdx dim = a0.shape.eraseIdx dim)

/-- `CatArray.__init__` (lines 637-677).  (`dim = dim or 0` is the identity
on a non-negative axis.)  Every member shape with the concatenation axis
deleted must equal the first one, else the constant `ValueError` above; the
reported shape is the first member shape with the concatenation axis
replaced by the sum of the member extents there.  (The theorems keep `dim`
within range, where `List.set`/`List.eraseIdx` agree with the Python list
operations.) -/
def CatArray.init (arrays : List View) (dim : Nat) : Except String CatArray :=
  match arrays with
  | [] => .error catUnpackMsg
  | a0 :: rest =>
      if catShapeOk a0 rest dim then
        .ok { arrays := a0 :: rest, dimCat := dim,
              shape := a0.shape.set dim
                (((a0 :: rest).map (fun a => a.shape.getD dim 0)).sum) }
      else .error catMismatchMsg

/-- `cat` (lines 850-868): builds a `CatArray`. -/
def cat (arrays : List View) (dim : Nat) : Except String CatArray :=
  CatArray.init arrays dim

/-- The entry of `CatArray.slice` (lines 679-688): the same `expand_index`
call (line 682) followed by the same dead guard as in `MappedArray.slice`
(lines 684-687), before any concatenation-specific logic runs.  Returns
the expanded index and output shape the rest of the method proceeds
with. -/
def CatArray.sliceHead (self : CatArray) (uindex : List UIdx) :
    Except String (List Idx × List Nat) :=
  match expand_index uindex self.shape with
  | .error e => .error e
  | .ok r => if sliceListGuardFires r.1 then .error listGuardMsg else .ok r

/-- The member-selection loop of `CatArray.slice` for an integer index at
the concatenation axis (lines 713-725), walking `i` over the members with
their extents along `_dim_cat` (`sizes`) and the expanded non-negative
integer index `g`:

    nb_pre = 0
    for i in range(len(self._arrays)):
        if nb_pre < index_cat:
            nb_pre += self._arrays[i].shape[self._dim_cat]; continue
        if i > index_cat:
            i = i - 1; nb_pre -= self._arrays[i].shape[self._dim_cat]
        index_cat = index_cat - nb_pre
        return self._arrays[i].slice(...)

Returns the selected member position and the local index passed to its
`slice`; `none` when the loop falls through to the
`assert is_sliceaxis(index_cat)` of line 728, which fails with
`AssertionError` on an integer index. -/
def catDropGo (sizes : List Nat) (g : Int) : List Nat → Nat → Int → Option (Nat × Int)
  | [], _, _ => none
  | s :: rem, i, nbPre =>
      if nbPre < g then catDropGo sizes g rem (i + 1) (nbPre + s)
      else if (i : Int) > g then
        some (i - 1, g - (nbPre - (sizes.getD (i - 1) 0 : Int)))
      else some (i, g - nbPre)

/-- Entry point of the loop above: `i = 0`, `nb_pre = 0`. -/
def catDropSelect (sizes : List Nat) (g : Int) : Option (Nat × Int) :=
  catDropGo sizes g sizes 0 0

/-- Modelled from the spec (section 4.4a), for comparison with the code:
the unique member whose extent interval along the concatenation axis
contains the global offset `g`, together with the local offset `g`
translated into that member. -/
def catDropIntended : List Nat → Nat → Option (Nat × Nat)
  | [], _ => none
  | s :: rest, g =>
      if g < s then some (0, g)
      else (catDropIntended rest (g - s)).map (fun p => (p.1 + 1, p.2))

/-! ## `stack` -/

/-- Result of evaluating line 888 of `mapping.py`. -/
inductive StackEval where
  | ok (arrays : List View)
  | attributeError (tyName attrName : String)
  deriving Repr, DecidableEq

/-- Embedding of line 888, `[arrays.unsqueeze(array, dim=dim) for array in
arrays]`: the receiver of `.unsqueeze` is the *list* `arrays` itself (of
Python type `list`, which defines no attribute `unsqueeze`), not the loop
variable `array`, so the comprehension body raises `AttributeError` on its
first iteration — i.e. whenever `arrays` is non-empty.  (An empty `arrays`
evaluates to `[]` without running the body.) -/
def stackArraysLine (arrays : List View) : StackEval :=
  match arrays with
  | [] => .ok []
  | _ :: _ => .attributeError "list" "unsqueeze"

/-! ## Object heap (for the side-effect claims)

Python objects live in a heap addressed by object identity; `copy(self)`
(lines 113 and 225) allocates a fresh object with the fields of `self`.
In `slice` and `permute` every field assignment targets the fresh copy
`new`; `self` is only read, and all error paths run before the copy. -/

/-- A heap of `MappedArray` objects: contents per object id, plus the next
fresh id (every id below `next` is live). -/
structure Heap where
  mem : Nat → View
  next : Nat

/-- Allocate a fresh object holding `v`: `copy` plus the subsequent field
overwrites, summarized by the final field values. -/
def Heap.alloc (h : Heap) (v : View) : Heap × Nat :=
  ({ mem := fun i => if i = h.next then v else h.mem i, next := h.next + 1 }, h.next)

/-- Object-level `MappedArray.slice`: read `self` at `o`, compute; on
success allocate the result as a fresh object (`new = copy(self)` followed
by writes to `new` only); on failure the heap is untouched (every `raise`
in `slice` precedes `copy(self)`). -/
def sliceObj (h : Heap) (o : Nat) (uindex : List UIdx) : Heap × Except String Nat :=
  match MappedArray.slice (h.mem o) uindex with
  | .error e => (h, .error e)
  | .ok v => let r := h.alloc v; (r.1, .ok r.2)

/-- Object-level `MappedArray.permute`: same discipline — `new =
copy(self)` (line 225) happens after all possible errors, and only `new`
is written. -/
def permuteObj (h : Heap) (o : Nat) (dims : List Int) : Heap × Except String Nat :=
  match MappedArray.permute (h.mem o) dims with
  | .error e => (h, .error e)
  | .ok v => let r := h.alloc v; (r.1, .ok r.2)

/-! ## Non-finite post-processing of the rational VFA computation
(`vfa.py` lines 199-262) -/

/-- A floating-point value, abstracted to what `torch.isfinite` observes:
either a finite number or one of the non-finite values. -/
inductive FVal where
  | fin (q : ℚ)
  | nan
  | posinf
  | neginf
  deriving Repr, DecidableEq

/-- `torch.isfinite`, entry-wise. -/
def FVal.isfinite : FVal → Bool
  | .fin _ => true
  | _ => false

/-- The mask `torch.isfinite(t)` of a map, entry-wise. -/
def isfiniteMask (t : List FVal) : List Bool := t.map FVal.isfinite

/-- Masked fill: `t[~mask] = v` — entries where the mask is `False` are
replaced by `v`, entries where it is `True` are kept. -/
def maskedFill (t : List FVal) (mask : List Bool) (v : FVal) : List FVal :=
  List.zipWith (fun x keep => if keep then x else v) t mask

/-- `t[~torch.isfinite(t)] = 0` (lines 201, 205 and 258 of `vfa.py`). -/
def zeroNonFinite (t : List FVal) : List FVal :=
  maskedFill t (isfiniteMask t) (.fin 0)

/-- The value-level content of the maps returned by `rational` (lines
199-262): the raw `pd` and `r1` maps computed by the rational
approximations (lines 199-200 and 203-204; their floating-point arithmetic
is outside this core and they enter here as inputs) after the non-finite
substitution, and likewise for `mtsat` (lines 256-257) when an MT-weighted
volume is present.  No other transformation sits between the substitution
and the `return`s of lines 210-212 and 260-262, and the function contains
no exception handler. -/
def rationalMaps (rawPd rawR1 : List FVal) (rawMt : Option (List FVal)) :
    List FVal × List FVal × Option (List FVal) :=
  (zeroNonFinite rawPd, zeroNonFinite rawR1, rawMt.map zeroNonFinite)

/-- Whether an error message spells the decimal representation of `i`. -/
def msgNamesIndex (msg : String) (i : Nat) : Prop :=
  (Nat.repr i).toList <:+: msg.toList

/-- Whether `dims` is a permutation of `range(n)` (the docstring contract
of `permute`, line 180). -/
def isPermOfRange (dims : List Int) (n : Nat) : Prop :=
  dims.Perm ((List.range n).map Int.ofNat)

/-! ## Concrete fixtures for witnesses and counterexamples -/

/-- A fresh 2x2 view. -/
def view22 : View :=
  { oshape := [2, 2], ospatial := [true, true], oaffine := none,
    shape := [2, 2], spatial := [true, true], affine := none,
    slicer := none, permutation := [0, 1] }

/-- A fresh view of shape `(1, 5, 1, 3)` (the squeeze scenario of the
spec). -/
def view1513 : View :=
  { oshape := [1, 5, 1, 3], ospatial := [true, true, true, false], oaffine := none,
    shape := [1, 5, 1, 3], spatial := [true, true, true, false], affine := none,
    slicer := none, permutation := [0, 1, 2, 3] }

/-- A fresh one-dimensional view of extent 3. -/
def view3 : View :=
  { oshape := [3], ospatial := [true], oaffine := none,
    shape := [3], spatial := [true], affine := none,
    slicer := none, permutation := [0] }

/-- A 4x5 view that has already been sliced once (its slicer is a tuple,
so `permute` can subscript it). -/
def viewSliced45 : View :=
  { oshape := [4, 5], ospatial := [true, true], oaffine := none,
    shape := [4, 5], spatial := [true, true], affine := none,
    slicer := some [Idx.sl 0 4 1, Idx.sl 0 5 1], permutation := [0, 1] }

/-- A fresh view of shape `(2, 3)`. -/
def view23 : View :=
  { oshape := [2, 3], ospatial := [true, true], oaffine := none,
    shape := [2, 3], spatial := [true, true], affine := none,
    slicer := none, permutation := [0, 1] }

/-- A fresh view of shape `(2, 4)` — disagrees with `view23` off axis 0. -/
def view24 : View :=
  { oshape := [2, 4], ospatial := [true, true], oaffine := none,
    shape := [2, 4], spatial := [true, true], affine := none,
    slicer := none, permutation := [0, 1] }

/-- A fresh view of shape `(4, 5, 5)` (the concatenation scenario of the
spec). -/
def view455 : View :=
  { oshape := [4, 5, 5], ospatial := [true, true, true], oaffine := none,
    shape := [4, 5, 5], spatial := [true, true, true], affine := none,
    slicer := none, permutation := [0, 1, 2] }

/-- A fresh view of shape `(6, 5, 5)`. -/
def view655 : View :=
  { oshape := [6, 5, 5], ospatial := [true, true, true], oaffine := none,
    shape := [6, 5, 5], spatial := [true, true, true], affine := none,
    slicer := some [Idx.sl 0 6 1, Idx.sl 0 5 1, Idx.sl 0 5 1], permutation := [0, 1, 2] }

/-- A one-object heap holding `view22` at id 0. -/
def heap0 : Heap := { mem := fun _ => view22, next := 1 }

/-- A `CatArray` of two 2x2 members along axis 0 (the value built by
`cat [view22, view22] 0`). -/
def catFix : CatArray := { arrays := [view22, view22], dimCat := 0, shape := [4, 2] }

/-! # Theorems -/

/-- The guard of `MappedArray.slice` (line 109) and `CatArray.slice`
(line 684) — `any(isinstance(idx, list) for idx in index) > 1` — compares
a boolean with `1` and therefore never fires. -/
theorem sliceListGuardFires_eq_false (index : List Idx) :
    sliceListGuardFires index = false := by
  unfold sliceListGuardFires pyBoolInt
  cases index.any Idx.isListIdx <;> rfl

/-- On an already expanded index, `sliceExpanded` always succeeds: its
only `raise` is the dead guard. -/
theorem sliceExpanded_ok (self : View) (index : List Idx) (ns : List Nat) :
    ∃ v, sliceExpanded self index ns = .ok v := by
  unfold sliceExpanded
  rw [sliceListGuardFires_eq_false, if_neg Bool.false_ne_true]
  exact ⟨_, rfl⟩

/-- Every error of `expand_index` other than the multi-list rejection
carries a message distinct from both list-rejection messages; the
multi-list rejection itself fires only when the index holds more than one
list-valued element. -/
theorem expand_index_error_ne (ui : List UIdx) (shape : List Nat) (m : String)
    (h : expand_index ui shape = .error m) :
    ((ui.filter UIdx.isListIdx).length ≤ 1 → m ≠ listIndexErrorMsg) ∧
    m ≠ listGuardMsg := by
  unfold expand_index at h
  by_cases hc : 1 < (ui.filter UIdx.isListIdx).length
  · rw [if_pos hc] at h
    injection h with hm
    subst hm
    exact ⟨fun hle _ => absurd hc (Nat.not_lt.mpr hle), by decide⟩
  · rw [if_neg hc] at h
    split_ifs at h
    · injection h with hm
      subst hm
      exact ⟨fun _ => by decide, by decide⟩
    · injection h with hm
      subst hm
      exact ⟨fun _ => by decide, by decide⟩
    · split at h
      · rename_i e heq
        injection h with hm
        subst hm
        refine ⟨fun _ => ?_, ?_⟩ <;> cases e <;> decide
      · exact absurd h (by simp)

/-- C1: slicing a `MappedArray` — and the identical entry of
`CatArray.slice` — with an index holding more than one list-valued element
fails with the `IndexError` with which expansion rejects unsupported list
indexing (spec section 4.1; `indexing.py` is absent from the sources and
modelled from the spec), while an index with at most one list-valued
element is never rejected with that error.  The in-method guard of lines
109/684 (`any(isinstance(idx, list) for idx in index) > 1`, a boolean
compared with 1) is itself dead: no call ever fails with its message — the
rejection is expansion's. -/
theorem slice_rejects_multi_list (self : View) (ca : CatArray) (uindex : List UIdx) :
    (1 < (uindex.filter UIdx.isListIdx).length →
      MappedArray.slice self uindex = .error listIndexErrorMsg ∧
      CatArray.sliceHead ca uindex = .error listIndexErrorMsg) ∧
    ((uindex.filter UIdx.isListIdx).length ≤ 1 →
      MappedArray.slice self uindex ≠ .error listIndexErrorMsg ∧
      CatArray.sliceHead ca uindex ≠ .error listIndexErrorMsg) ∧
    MappedArray.slice self uindex ≠ .error listGuardMsg ∧
    CatArray.sliceHead ca uindex ≠ .error listGuardMsg := by
  have hexp : ∀ sh : List Nat, 1 < (uindex.filter UIdx.isListIdx).length →
      expand_index uindex sh = .error listIndexErrorMsg := by
    intro sh hc
    unfold expand_index
    rw [if_pos hc]
  refine ⟨fun hc => ⟨?_, ?_⟩, fun hle => ⟨?_, ?_⟩, ?_, ?_⟩
  · unfold MappedArray.slice
    rw [hexp self.shape hc]
  · unfold CatArray.sliceHead
    rw [hexp ca.shape hc]
  · intro hx
    unfold MappedArray.slice at hx
    cases hex : expand_index uindex self.shape with
    | error e =>
        rw [hex] at hx
        injection hx with hm
        exact (expand_index_error_ne uindex self.shape e hex).1 hle hm
    | ok r =>
        rw [hex] at hx
        change sliceExpanded self r.1 r.2 = Except.error listIndexErrorMsg at hx
        obtain ⟨v, hv⟩ := sliceExpanded_ok self r.1 r.2
        rw [hv] at hx
        exact Except.noConfusion hx
  · intro hx
    unfold CatArray.sliceHead at hx
    cases hex : expand_index uindex ca.shape with
    | error e =>
        rw [hex] at hx
        injection hx with hm
        exact (expand_index_error_ne uindex ca.shape e hex).1 hle hm
    | ok r =>
        rw [hex] at hx
        change (if sliceListGuardFires r.1 then Except.error listGuardMsg
                else Except.ok r) = Except.error listIndexErrorMsg at hx
        rw [sliceListGuardFires_eq_false, if_neg Bool.false_ne_true] at hx
        exact Except.noConfusion hx
  · intro hx
    unfold MappedArray.slice at hx
    cases hex : expand_index uindex self.shape with
    | error e =>
        rw [hex] at hx
        injection hx with hm
        exact (expand_index_error_ne uindex self.shape e hex).2 hm
    | ok r =>
        rw [hex] at hx
        change sliceExpanded self r.1 r.2 = Except.error listGuardMsg at hx
        obtain ⟨v, hv⟩ := sliceExpanded_ok self r.1 r.2
        rw [hv] at hx
        exact Except.noConfusion hx
  · intro hx
    unfold CatArray.sliceHead at hx
    cases hex : expand_index uindex ca.shape with
    | error e =>
        rw [hex] at hx
        injection hx with hm
        exact (expand_index_error_ne uindex ca.shape e hex).2 hm
    | ok r =>
        rw [hex] at hx
        change (if sliceListGuardFires r.1 then Except.error listGuardMsg
                else Except.ok r) = Except.error listGuardMsg at hx
        rw [sliceListGuardFires_eq_false, if_neg Bool.false_ne_true] at hx
        exact Except.noConfusion hx

/-- C1 witness: the two-list index `([0], [1])` is rejected by both slice
entries with the list-indexing `IndexError`. -/
theorem slice_rejects_multi_list_witness :
    1 < (([UIdx.ulist [0], UIdx.ulist [1]] : List UIdx).filter UIdx.isListIdx).length ∧
    MappedArray.slice view22 [UIdx.ulist [0], UIdx.ulist [1]] = .error listIndexErrorMsg ∧
    CatArray.sliceHead catFix [UIdx.ulist [0], UIdx.ulist [1]] = .error listIndexErrorMsg :=
  ⟨by decide,
   ((slice_rejects_multi_list view22 catFix [UIdx.ulist [0], UIdx.ulist [1]]).1 (by decide)).1,
   ((slice_rejects_multi_list view22 catFix [UIdx.ulist [0], UIdx.ulist [1]]).1 (by decide)).2⟩

/-- C3: the member-selection loop of `CatArray.slice` for an integer index
at the concatenation axis (lines 713-725) does not return the member whose
extent interval contains the global offset.  For two members of extent 2
(the fixture `view22` concatenated with itself along axis 0), global
offset 1 lies in member 0 at local offset 1, but the code recurses into
member 1 with local index `-1`; and for a single member of extent 5,
global offset 2 makes the loop fall through to the assertion of line 728,
which fails. -/
theorem catdrop_integer_selection_bug :
    (∃ c, cat [view22, view22] 0 = .ok c ∧
      c.arrays.map (fun a => a.shape.getD c.dimCat 0) = [2, 2] ∧ c.shape = [4, 2]) ∧
    catDropSelect [2, 2] 1 = some (1, -1) ∧
    catDropIntended [2, 2] 1 = some (0, 1) ∧
    catDropSelect [5] 2 = none := by
  refine ⟨⟨_, rfl, by decide, by decide⟩, by decide, by decide, by decide⟩

/-- C4: `stack` (line 888) evaluates `arrays.unsqueeze(array, dim=dim)`
whose receiver is the Python *list* `arrays`, which has no attribute
`unsqueeze`; every call on a non-empty sequence of views therefore raises
`AttributeError` instead of building a `CatArray`.  The second conjunct
shows the behavior the claim (and the spec) describe for the member views:
`unsqueeze` at axis 0 does insert a new axis of size 1. -/
theorem stack_raises_attribute_error :
    (∀ (v : View) (rest : List View),
      stackArraysLine (v :: rest) = .attributeError "list" "unsqueeze") ∧
    (∃ u, MappedArray.unsqueeze view22 0 = .ok u ∧ u.shape = [1, 2, 2]) := by
  exact ⟨fun v rest => rfl, ⟨_, rfl, by decide⟩⟩

/-- C8: `squeeze` is declared as `def squeeze(self, dim):` (line 508) with
no default for `dim`, so `v.squeeze()` with no axis argument raises
`TypeError` instead of removing the size-1 dimensions; the body itself,
run with `dim=None`, would turn shape `(1, 5, 1, 3)` into `(5, 3)`, and
with `dim=1` (an axis of extent 5) it raises the `ValueError` the claim
describes. -/
theorem squeeze_requires_dim_argument :
    MappedArray.squeezeNoArg view1513 = .error squeezeNoArgMsg ∧
    (∃ v, MappedArray.squeezeBody view1513 none = .ok v ∧ v.shape = [5, 3]) ∧
    MappedArray.squeezeBody view1513 (some [1]) = .error squeezeValueMsg := by
  exact ⟨rfl, ⟨_, rfl, by decide⟩, rfl⟩

/-- C5 (counterexample): `permute` does not fail with `ValueError` on every
`dims` that is not a permutation of `range(v.dim)`: `[0, -1]` has the right
length and distinct entries but is no such permutation, yet the length /
uniqueness check of lines 190-193 passes and the call on a 2-dimensional
sliced view succeeds. -/
theorem permute_accepts_non_permutation :
    ¬ isPermOfRange [0, -1] 2 ∧
    permuteCheckRaises [0, -1] 2 = false ∧
    (MappedArray.permute viewSliced45 [0, -1]).isOk = true := by
  refine ⟨?_, by decide, by decide⟩
  unfold isPermOfRange
  decide

set_option maxRecDepth 8000 in
/-- C6 (counterexample): concatenating a `(2, 3)` view with a `(2, 4)` view
along axis 0 fails with the `ValueError` of lines 664-665, but its message
is a constant that contains no digit at all — in particular it does not
name the offending member index 1. -/
theorem cat_mismatch_names_no_index :
    CatArray.init [view23, view24] 0 = .error catMismatchMsg ∧
    ¬ msgNamesIndex catMismatchMsg 1 ∧
    (catMismatchMsg.toList.any Char.isDigit) = false := by
  refine ⟨rfl, ?_, by decide⟩
  unfold msgNamesIndex
  decide

/-- Unfolding of `CatArray.init` on a non-empty member list. -/
theorem CatArray.init_cons (a0 : View) (rest : List View) (k : Nat) :
    CatArray.init (a0 :: rest) k =
      if catShapeOk a0 rest k then
        .ok { arrays := a0 :: rest, dimCat := k,
              shape := a0.shape.set k (((a0 :: rest).map (fun a => a.shape.getD k 0)).sum) }
      else .error catMismatchMsg := rfl

/-- C2: for a non-empty member list agreeing on every axis but `k` (and a
concatenation axis within range), `cat` succeeds and the reported shape is
the first member's shape with index `k` replaced by the sum of the member
extents along `k`; position `k` of the result carries that sum and every
other position is unchanged. -/
theorem cat_shape_law (a0 : View) (rest : List View) (k : Nat)
    (hk : k < a0.shape.length)
    (hagree : ∀ a ∈ rest, a.shape.eraseIdx k = a0.shape.eraseIdx k) :
    cat (a0 :: rest) k = Except.ok
      { arrays := a0 :: rest, dimCat := k,
        shape := a0.shape.set k (((a0 :: rest).map (fun a => a.shape.getD k 0)).sum) } ∧
    (a0.shape.set k (((a0 :: rest).map (fun a => a.shape.getD k 0)).sum)).getD k 0
      = ((a0 :: rest).map (fun a => a.shape.getD k 0)).sum ∧
    (∀ j, j ≠ k →
      (a0.shape.set k (((a0 :: rest).map (fun a => a.shape.getD k 0)).sum)).getD j 0
        = a0.shape.getD j 0) := by
  have hall : catShapeOk a0 rest k = true :=
    List.all_eq_true.mpr (fun a ha => decide_eq_true (hagree a ha))
  refine ⟨?_, ?_, fun j hj => ?_⟩
  · show CatArray.init (a0 :: rest) k = _
    rw [CatArray.init_cons, if_pos hall]
  · rw [List.getD_eq_getElem?_getD, List.getElem?_set_eq_of_lt _ hk]
    rfl
  · rw [List.getD_eq_getElem?_getD, List.getElem?_set_ne (Ne.symm hj),
        ← List.getD_eq_getElem?_getD]

/-- C2 witness: the spec scenario, `cat` of a `(4, 5, 5)` view and a
`(6, 5, 5)` view along axis 0, whose reported shape is `(10, 5, 5)`. -/
theorem cat_shape_law_witness :
    (0 < view455.shape.length ∧
      ∀ a ∈ [view655], a.shape.eraseIdx 0 = view455.shape.eraseIdx 0) ∧
    cat [view455, view655] 0 = Except.ok
      { arrays := [view455, view655], dimCat := 0,
        shape := view455.shape.set 0 (([view455, view655].map (fun a => a.shape.getD 0 0)).sum) } ∧
    view455.shape.set 0 (([view455, view655].map (fun a => a.shape.getD 0 0)).sum) = [10, 5, 5] :=
  ⟨⟨by decide, by decide⟩,
   (cat_shape_law view455 [view655] 0 (by decide) (by decide)).1, by decide⟩

/-- The number of distinct entries equals the length exactly on
duplicate-free lists. -/
theorem length_dedup_eq_iff {l : List Int} : l.length = l.dedup.length ↔ l.Nodup := by
  constructor
  · intro h
    exact List.dedup_eq_self.mp ((List.dedup_sublist l).eq_of_length h.symm)
  · intro h
    rw [List.dedup_eq_self.mpr h]

/-- C5 (amended): the validation of `permute` fails with `ValueError`
exactly when `dims` has the wrong length or repeated entries — it does not
test that the entries lie in `range(v.dim)`; in particular every
permutation of `range(v.dim)` passes, but so does any right-length
duplicate-free `dims` with out-of-range values. -/
theorem permute_check_characterization (dims : List Int) (n : Nat) :
    (permuteCheckRaises dims n = false ↔ dims.length = n ∧ dims.Nodup) ∧
    (isPermOfRange dims n → permuteCheckRaises dims n = false) := by
  have hiff : permuteCheckRaises dims n = false ↔ dims.length = n ∧ dims.Nodup := by
    simp only [permuteCheckRaises, Bool.or_eq_false_iff, decide_eq_false_iff_not, ne_eq,
      not_not]
    exact and_congr_right fun _ => length_dedup_eq_iff
  refine ⟨hiff, fun hp => hiff.mpr ⟨?_, ?_⟩⟩
  · exact hp.length_eq.trans (by rw [List.length_map, List.length_range])
  · exact hp.symm.nodup
      (List.Nodup.map (fun a b hab => Int.ofNat.inj hab) (List.nodup_range n))

/-- C5 amended witness: the permutation `[1, 0]` of `range(2)` passes the
check. -/
theorem permute_check_characterization_witness :
    permuteCheckRaises [1, 0] 2 = false :=
  (permute_check_characterization [1, 0] 2).1.mpr (by decide)

set_option maxRecDepth 8000 in
/-- C6 (amended): `CatArray` construction on a non-empty member list fails
with `ValueError` exactly when some member disagrees with the first off the
concatenation axis, but the message is a fixed digit-free string that names
no member index; when all non-cat-axis extents agree the construction
succeeds. -/
theorem cat_mismatch_behavior (a0 : View) (rest : List View) (k : Nat) :
    (CatArray.init (a0 :: rest) k = .error catMismatchMsg ↔
      ¬ ∀ a ∈ rest, a.shape.eraseIdx k = a0.shape.eraseIdx k) ∧
    ((∀ a ∈ rest, a.shape.eraseIdx k = a0.shape.eraseIdx k) →
      CatArray.init (a0 :: rest) k = .ok
        { arrays := a0 :: rest, dimCat := k,
          shape := a0.shape.set k (((a0 :: rest).map (fun a => a.shape.getD k 0)).sum) }) ∧
    catMismatchMsg.toList.all (fun c => !c.isDigit) = true := by
  by_cases h : ∀ a ∈ rest, a.shape.eraseIdx k = a0.shape.eraseIdx k
  · have hall : catShapeOk a0 rest k = true :=
      List.all_eq_true.mpr (fun a ha => decide_eq_true (h a ha))
    refine ⟨?_, fun _ => ?_, by decide⟩
    · rw [CatArray.init_cons, if_pos hall]
      exact iff_of_false (fun hx => Except.noConfusion hx) (not_not_intro h)
    · rw [CatArray.init_cons, if_pos hall]
  · have hall : catShapeOk a0 rest k = false := by
      cases hb : catShapeOk a0 rest k with
      | false => rfl
      | true =>
          exact absurd (fun a ha => of_decide_eq_true (List.all_eq_true.mp hb a ha)) h
    refine ⟨?_, fun hc => absurd hc h, by decide⟩
    rw [CatArray.init_cons, if_neg (fun hc => Bool.false_ne_true (hall ▸ hc))]
    exact iff_of_true rfl h

/-- C6 amended witness: the mismatching pair from the counterexample indeed
takes the error branch of the characterization. -/
theorem cat_mismatch_behavior_witness :
    CatArray.init [view23, view24] 0 = .error catMismatchMsg :=
  (cat_mismatch_behavior view23 [view24] 0).1.mpr (by decide)

/-- Allocation frame property: a fresh allocation leaves every live object
unchanged and returns an id distinct from every live id. -/
theorem heap_alloc_frame (h : Heap) (v : View) (o : Nat) (ho : o < h.next) :
    (h.alloc v).1.mem o = h.mem o ∧ (h.alloc v).2 ≠ o := by
  refine ⟨?_, fun e => Nat.ne_of_lt ho e.symm⟩
  show (if o = h.next then v else h.mem o) = h.mem o
  exact if_neg (Nat.ne_of_lt ho)

/-- C7 (counterexample): `permute` on a freshly mapped view — whose
`slicer` is `None`, the normal state right after mapping — raises
`TypeError` at line 207 (`self.slicer[n_slicer]` subscripts `None`) even
for the valid permutation `[0, 1]` of `range(2)`, so the call returns no
new object at all, refuting the claim as stated. -/
theorem permute_fresh_view_no_new_object :
    isPermOfRange [0, 1] 2 ∧
    view22.slicer = none ∧ view22.dim = 2 ∧
    MappedArray.permute view22 [0, 1] = .error noneSubscriptMsg ∧
    (permuteObj heap0 0 [0, 1]).2 = .error noneSubscriptMsg := by
  refine ⟨?_, rfl, rfl, rfl, rfl⟩
  unfold isPermOfRange
  decide

/-- C7 (amended): neither `slice` nor `permute` ever mutates the receiver —
after either call, successful or raising, the heap still holds the
untouched pre-state of the receiver object (its `shape`, `spatial`,
`slicer`, `permutation` and `affine` fields are all inside `View`);
whenever either call returns a view it is a freshly allocated object
distinct from the receiver (`new = copy(self)`, lines 113 and 225, with
every subsequent assignment targeting `new`), and `slice` returns such an
object whenever index expansion succeeds.  (`permute` on a fresh view with
`slicer` `None` instead raises `TypeError`, returning no object — see the
counterexample.) -/
theorem slice_permute_no_mutation_fresh_result (h : Heap) (o : Nat) (uindex : List UIdx)
    (dims : List Int) (ho : o < h.next) :
    ((sliceObj h o uindex).1.mem o = h.mem o) ∧
    ((permuteObj h o dims).1.mem o = h.mem o) ∧
    (∀ n, (sliceObj h o uindex).2 = .ok n → n ≠ o) ∧
    (∀ n, (permuteObj h o dims).2 = .ok n → n ≠ o) ∧
    (∀ r, expand_index uindex (h.mem o).shape = .ok r →
      ∃ n, (sliceObj h o uindex).2 = .ok n ∧ n ≠ o) := by
  refine ⟨?_, ?_, ?_, ?_, ?_⟩
  · unfold sliceObj
    cases MappedArray.slice (h.mem o) uindex with
    | error e => rfl
    | ok v => exact (heap_alloc_frame h v o ho).1
  · unfold permuteObj
    cases MappedArray.permute (h.mem o) dims with
    | error e => rfl
    | ok v => exact (heap_alloc_frame h v o ho).1
  · unfold sliceObj
    cases MappedArray.slice (h.mem o) uindex with
    | error e => exact fun n hn => nomatch hn
    | ok v => exact fun n hn => (Except.ok.inj hn) ▸ (heap_alloc_frame h v o ho).2
  · unfold permuteObj
    cases MappedArray.permute (h.mem o) dims with
    | error e => exact fun n hn => nomatch hn
    | ok v => exact fun n hn => (Except.ok.inj hn) ▸ (heap_alloc_frame h v o ho).2
  · intro r hr
    have hsl : ∃ w, MappedArray.slice (h.mem o) uindex = .ok w := by
      unfold MappedArray.slice
      rw [hr]
      obtain ⟨v, hv⟩ := sliceExpanded_ok (h.mem o) r.1 r.2
      exact ⟨v, hv⟩
    obtain ⟨w, hw⟩ := hsl
    unfold sliceObj
    rw [hw]
    exact ⟨h.next, rfl, fun e => Nat.ne_of_lt ho e.symm⟩

/-- C7 amended witness: slicing with an ellipsis and permuting with
`[0, 1]` on a one-object heap leave the object at id 0 untouched and any
returned id is fresh; the ellipsis index expands successfully, so `slice`
does return a fresh object here. -/
theorem slice_permute_no_mutation_fresh_result_witness :
    0 < heap0.next ∧
    (((sliceObj heap0 0 [UIdx.uell]).1.mem 0 = heap0.mem 0) ∧
     ((permuteObj heap0 0 [0, 1]).1.mem 0 = heap0.mem 0) ∧
     (∀ n, (sliceObj heap0 0 [UIdx.uell]).2 = .ok n → n ≠ 0) ∧
     (∀ n, (permuteObj heap0 0 [0, 1]).2 = .ok n → n ≠ 0) ∧
     (∀ r, expand_index [UIdx.uell] (heap0.mem 0).shape = .ok r →
       ∃ n, (sliceObj heap0 0 [UIdx.uell]).2 = .ok n ∧ n ≠ 0)) :=
  ⟨by decide, slice_permute_no_mutation_fresh_result heap0 0 [UIdx.uell] [0, 1] (by decide)⟩

/-- Entry-wise characterization of `t[~torch.isfinite(t)] = 0`. -/
theorem zeroNonFinite_getD (t : List FVal) (i : Nat) (hi : i < t.length) :
    (zeroNonFinite t).getD i .nan =
      if (t.getD i .nan).isfinite then t.getD i .nan else .fin 0 := by
  induction t generalizing i with
  | nil => cases hi
  | cons x xs ih =>
      cases i with
      | zero => simp [zeroNonFinite, maskedFill, isfiniteMask, List.getD]
      | succ n =>
          have := ih n (Nat.lt_of_succ_lt_succ hi)
          simpa [zeroNonFinite, maskedFill, isfiniteMask, List.getD] using this

/-- The substitution preserves the length of a map. -/
theorem zeroNonFinite_length (t : List FVal) : (zeroNonFinite t).length = t.length := by
  simp [zeroNonFinite, maskedFill, isfiniteMask]

/-- C9: in the maps returned by `rational`, every non-finite entry of `pd`,
`r1` and (when present) `mtsat` has been replaced by zero and every finite
entry is untouched; the substitution preserves the map contents otherwise
(same length, entry-wise `if`), and when no MT-weighted volume is present
no `mtsat` map is produced. -/
theorem rational_nonfinite_to_zero (rawPd rawR1 rawMt : List FVal) (i : Nat)
    (hp : i < rawPd.length) (hr : i < rawR1.length) (hm : i < rawMt.length) :
    ((rationalMaps rawPd rawR1 (some rawMt)).1.getD i .nan =
        if (rawPd.getD i .nan).isfinite then rawPd.getD i .nan else .fin 0) ∧
    ((rationalMaps rawPd rawR1 (some rawMt)).2.1.getD i .nan =
        if (rawR1.getD i .nan).isfinite then rawR1.getD i .nan else .fin 0) ∧
    ((rationalMaps rawPd rawR1 (some rawMt)).2.2 = some (zeroNonFinite rawMt) ∧
      (zeroNonFinite rawMt).getD i .nan =
        if (rawMt.getD i .nan).isfinite then rawMt.getD i .nan else .fin 0) ∧
    (rationalMaps rawPd rawR1 none).2.2 = none ∧
    (rationalMaps rawPd rawR1 (some rawMt)).1.length = rawPd.length ∧
    (rationalMaps rawPd rawR1 (some rawMt)).2.1.length = rawR1.length :=
  ⟨zeroNonFinite_getD _ _ hp, zeroNonFinite_getD _ _ hr,
   ⟨rfl, zeroNonFinite_getD _ _ hm⟩, rfl, zeroNonFinite_length _, zeroNonFinite_length _⟩

/-- C9 witness: a finite entry survives and sits next to a replaced `nan`
entry. -/
theorem rational_nonfinite_to_zero_witness :
    1 < ([FVal.fin 2, FVal.nan] : List FVal).length ∧
    (rationalMaps [FVal.fin 2, FVal.nan] [FVal.posinf, FVal.fin 3]
        (some [FVal.neginf, FVal.fin 5])).1.getD 1 .nan =
      (if (([FVal.fin 2, FVal.nan] : List FVal).getD 1 .nan).isfinite
       then ([FVal.fin 2, FVal.nan] : List FVal).getD 1 .nan else .fin 0) :=
  ⟨by decide,
   (rational_nonfinite_to_zero [FVal.fin 2, FVal.nan] [FVal.posinf, FVal.fin 3]
     [FVal.neginf, FVal.fin 5] 1 (by decide) (by decide) (by decide)).1⟩

/-- C10: `chunk(n, d)` returns exactly `shape[d]` sub-views, the `i`-th
being the view sliced with `slice(i*n, (i+1)*n)` at axis `d` — `n` is a
per-chunk size, not a chunk count — and `split` with an integer delegates
to `chunk` unchanged.  On a fresh extent-3 view with `n = 2` the chunk
extents are `2, 1, 0`: a trailing empty chunk. -/
theorem chunk_is_per_chunk_size (v : View) (n : Int) (d : Nat) :
    ((MappedArray.chunk v n d).length = v.shape.getD d 0) ∧
    (∀ i, i < v.shape.getD d 0 →
      (MappedArray.chunk v n d).getD i (.error "") =
        MappedArray.slice v ((List.replicate v.dim fullSlice).set d
          (UIdx.usl (some ((i : Int) * n)) (some (((i : Int) + 1) * n)) none))) ∧
    (MappedArray.split v (.inl n) d = .ok (MappedArray.chunk v n d)) ∧
    ((MappedArray.chunk view3 2 0).map
        (fun r => match r with | .ok w => w.shape | .error _ => []) = [[2], [1], [0]]) := by
  refine ⟨?_, fun i hi => ?_, rfl, by decide⟩
  · simp [MappedArray.chunk]
  · unfold MappedArray.chunk
    rw [List.getD_eq_getElem?_getD, List.getElem?_map, List.getElem?_range hi]
    rfl

/-- C10 witness: the second chunk of the extent-3 view with `n = 2` is the
slice `slice(2, 4)`. -/
theorem chunk_is_per_chunk_size_witness :
    1 < view3.shape.getD 0 0 ∧
    (MappedArray.chunk view3 2 0).getD 1 (.error "") =
      MappedArray.slice view3 ((List.replicate view3.dim fullSlice).set 0
        (UIdx.usl (some (((1 : Nat) : Int) * 2)) (some ((((1 : Nat) : Int) + 1) * 2)) none)) :=
  ⟨by decide, (chunk_is_per_chunk_size view3 2 0).2.1 1 (by decide)⟩

end Nitorch
